import Mathlib

/-
Verification of the GitHub contribution-calendar code in
src/assets/js/github-calendar.js: the browser widget (class GitHubCalendar)
and the Netlify proxy function (handler) that share that file.

Modelling conventions (shallow embedding):
- Calendar dates handled through setDate/getDate arithmetic are modelled as
  integers counting days since 1970-01-01, each integer standing for the
  start-of-day instant produced by setHours(0,0,0,0).  Date.prototype.getDay
  on such a day number d is (d + 4) % 7, because 1970-01-01 was a Thursday.
- The JavaScript remainder operator % takes the sign of the dividend
  (truncated division); it is modelled by Int.tmod.
- The idiom Number(x) || d over integer-valued options is modelled by
  jsOrInt: the value 0 (the only falsy integer that occurs) selects the
  default d.
- ISO date strings such as "2024-01-05" are kept as Lean String values; the
  comparator (a, b) => (a.date < b.date ? -1 : 1) compares them with the
  lexicographic String order, as JavaScript does for these ASCII strings.
- The stable ECMAScript Array.prototype.sort with that comparator puts a
  before b exactly when a.date < b.date; it is modelled by insertion sort
  with the relation dlt below (insertion sort is stable).
- Fallible JavaScript code (thrown exceptions) is modelled with Except.
-/

namespace GithubCalendarSpec

/-! Date-window arithmetic shared by the widget and the proxy. -/

/-- JavaScript remainder operator (sign of the dividend). -/
def jsMod (a b : Int) : Int := Int.tmod a b

/-- Date.prototype.getDay of a start-of-day date modelled as a day number:
1970-01-01 (day 0) was a Thursday, so getDay is (d + 4) mod 7. -/
def weekday (d : Int) : Int := (d + 4) % 7

/-- The idiom Number(x) || d for the integer-valued widget options
(github-calendar.js lines 74 and 80): 0 is the only falsy integer value
that arises, and it selects the default. -/
def jsOrInt (x d : Int) : Int := if x = 0 then d else x

/-- Widget, line 74: const daysToShow = Number(this.options.daysToShow) || 167. -/
def widgetDaysToShow (optDays : Int) : Int := jsOrInt optDays 167

/-- Widget, line 80: const weekStart = Number(this.options.weekStart) || 0. -/
def widgetWeekStart (optWS : Int) : Int := jsOrInt optWS 0

/-- Widget, lines 75-77: fromBase = today minus (daysToShow - 1) days. -/
def widgetFromBase (today optDays : Int) : Int :=
  today - (widgetDaysToShow optDays - 1)

/-- Widget, line 81: dayShift = (fromBase.getDay() - weekStart + 7) % 7. -/
def widgetDayShift (today optDays optWS : Int) : Int :=
  jsMod (weekday (widgetFromBase today optDays) - widgetWeekStart optWS + 7) 7

/-- Widget, lines 82-84: fromAligned = fromBase shifted earlier by dayShift
days.  This is the from date the widget sends to the proxy; the to date it
sends is today itself (lines 69-71). -/
def widgetFromAligned (today optDays optWS : Int) : Int :=
  widgetFromBase today optDays - widgetDayShift today optDays optWS

/-- Proxy handler, lines 371-373: to is the query parameter when sent,
otherwise the start of the current day. -/
def proxyTo (today : Int) (queryTo : Option Int) : Int :=
  queryTo.getD today

/-- Proxy handler, lines 378-397: when query.days holds a positive number,
fromDate = toDate minus (days - 1) days, shifted earlier to the week start
when query.weekStart was sent and reads 0 or 1 (an absent or empty
weekStart parameter is modelled as none). -/
def proxyFromOfDays (toDate days : Int) (queryWeekStart : Option Int) : Int :=
  let fromDate := toDate - (days - 1)
  match queryWeekStart with
  | some w =>
    if w = 0 ∨ w = 1 then fromDate - jsMod (weekday fromDate - w + 7) 7
    else fromDate
  | none => fromDate

/-- REST fallback, lines 137-147: the aligned start date of the day range,
computed from the raw option values (no Number(...) || 167 coercion on this
path). -/
def fallbackStart (today daysToShow weekStart : Int) : Int :=
  let startBase := today - (daysToShow - 1)
  startBase - jsMod (weekday startBase - weekStart + 7) 7

/-! Arithmetic helper lemmas. -/

theorem jsMod_eq_emod (a : Int) (h : 0 ≤ a) : jsMod a 7 = a % 7 := by
  obtain ⟨m, rfl⟩ := Int.eq_ofNat_of_zero_le h
  rfl

theorem weekday_bounds (d : Int) : 0 ≤ weekday d ∧ weekday d < 7 := by
  unfold weekday
  exact ⟨Int.emod_nonneg _ (by norm_num), Int.emod_lt_of_pos _ (by norm_num)⟩

theorem align_spec (base W : Int) (hW : W = 0 ∨ W = 1) :
    0 ≤ jsMod (weekday base - W + 7) 7 ∧
    jsMod (weekday base - W + 7) 7 ≤ 6 ∧
    weekday (base - jsMod (weekday base - W + 7) 7) = W := by
  have hWb : 0 ≤ W ∧ W ≤ 1 := by rcases hW with h | h <;> omega
  have hwd := weekday_bounds base
  rw [jsMod_eq_emod _ (by omega)]
  unfold weekday
  unfold weekday at hwd
  omega

/-- Claim C1: for every start-of-day today, every positive day count N and
every weekStart W in 0, 1 — the from date computed by the widget before
calling the proxy, and the from date computed by the proxy handler from a
positive days parameter, both equal (to - (N-1) days) shifted earlier by
(weekday (to - (N-1)) - W + 7) mod 7 days; that shift lies in 0..6, the
aligned from falls on weekday W, and to - from = (N - 1) + shift days.  The
to date is the supplied one for the proxy (start of today when absent) and
today itself for the widget. -/
theorem window_alignment (today t N W : Int) (hN : 0 < N) (hW : W = 0 ∨ W = 1) :
    widgetFromAligned today N W
        = today - (N - 1) - jsMod (weekday (today - (N - 1)) - W + 7) 7 ∧
    proxyFromOfDays t N (some W)
        = t - (N - 1) - jsMod (weekday (t - (N - 1)) - W + 7) 7 ∧
    proxyTo today none = today ∧
    proxyTo today (some t) = t ∧
    weekday (widgetFromAligned today N W) = W ∧
    weekday (proxyFromOfDays t N (some W)) = W ∧
    0 ≤ jsMod (weekday (today - (N - 1)) - W + 7) 7 ∧
    jsMod (weekday (today - (N - 1)) - W + 7) 7 ≤ 6 ∧
    today - widgetFromAligned today N W
        = (N - 1) + jsMod (weekday (today - (N - 1)) - W + 7) 7 ∧
    t - proxyFromOfDays t N (some W)
        = (N - 1) + jsMod (weekday (t - (N - 1)) - W + 7) 7 := by
  have hN0 : N ≠ 0 := by omega
  have hws : jsOrInt W 0 = W := by rcases hW with h | h <;> simp [jsOrInt, h]
  have ew : widgetFromAligned today N W
      = today - (N - 1) - jsMod (weekday (today - (N - 1)) - W + 7) 7 := by
    simp only [widgetFromAligned, widgetFromBase, widgetDayShift,
      widgetDaysToShow, widgetWeekStart, jsOrInt, if_neg hN0, hws]
    rcases hW with h | h <;> simp [h]
  have ep : proxyFromOfDays t N (some W)
      = t - (N - 1) - jsMod (weekday (t - (N - 1)) - W + 7) 7 := by
    simp only [proxyFromOfDays, if_pos hW]
  have haw := align_spec (today - (N - 1)) W hW
  have hap := align_spec (t - (N - 1)) W hW
  refine ⟨ew, ep, rfl, rfl, ?_, ?_, haw.1, haw.2.1, ?_, ?_⟩
  · rw [ew]; exact haw.2.2
  · rw [ep]; exact hap.2.2
  · rw [ew]; ring
  · rw [ep]; ring

/-- Witness for C1 at a concrete input: today = day 19734 (2024-01-10, a
Wednesday), N = 10, W = 0; the aligned from is day 19722 (2023-12-31, a
Sunday), matching the worked scenario in the spec. -/
theorem window_alignment_witness :
    (0 : Int) < 10 ∧ ((0 : Int) = 0 ∨ (0 : Int) = 1) ∧
    widgetFromAligned 19734 10 0 = 19722 ∧
    weekday (widgetFromAligned 19734 10 0) = 0 ∧
    (19734 : Int) - widgetFromAligned 19734 10 0
        = 9 + jsMod (weekday (19734 - 9) - 0 + 7) 7 := by
  have h := window_alignment 19734 19734 10 0 (by norm_num) (Or.inl rfl)
  refine ⟨by norm_num, Or.inl rfl, by decide, h.2.2.2.2.1, ?_⟩
  have h9 := h.2.2.2.2.2.2.2.2.1
  simpa using h9

/-- Claim C6 (refuted, code bug): the spec requires that a daysToShow of 0
or negative never produce an inverted window and that non-positive counts
be treated as the default 167.  The code only coerces the falsy value 0 on
the proxy-call path: a negative daysToShow is used as-is and yields
from > to.  At today = day 3 (1970-01-04, a Sunday), weekStart 0 and
daysToShow = -6, the widget computes from = day 10 = today + 7 > to, and
the coercion keeps -6 instead of 167.  On the REST-fallback path even 0 is
not coerced (line 139 reads the option raw), and at today = day 2 with
daysToShow = 0 the aligned start is day 3 > today. -/
theorem nonpositive_days_inverted_window :
    widgetDaysToShow (-6) = -6 ∧
    widgetFromAligned 3 (-6) 0 = 10 ∧
    (3 : Int) < widgetFromAligned 3 (-6) 0 ∧
    fallbackStart 2 0 0 = 3 ∧
    (2 : Int) < fallbackStart 2 0 0 := by
  refine ⟨by decide, by decide, by decide, by decide, by decide⟩

/-! Contribution-day lists, the sort comparator and the proxy day pipeline. -/

/-- One entry of the normalized day list: date is an ISO "YYYY-MM-DD"
string, count the number of contributions on that date. -/
structure ContributionDay where
  date : String
  count : Nat
deriving DecidableEq, Repr

/-- The ordering realised by the comparator
(a, b) => (a.date < b.date ? -1 : 1) used at lines 109, 263 (widget) and
line 491 (proxy): a comes before b exactly when a.date < b.date under the
lexicographic string order. -/
def dlt (a b : ContributionDay) : Prop := a.date < b.date

instance : DecidableRel dlt := fun a b =>
  decidable_of_iff (a.date.toList < b.date.toList)
    (by rw [dlt, String.lt_iff_toList_lt])

instance : IsAntisymm ContributionDay dlt :=
  ⟨fun a b h1 h2 =>
    absurd (show b.date < a.date from h2)
      (lt_asymm (show a.date < b.date from h1))⟩

/-- Array.prototype.sort with the comparator above (stable ECMAScript sort,
consistent on date-distinct entries), modelled as a stable insertion sort
on the relation dlt. -/
def sortByDate (l : List ContributionDay) : List ContributionDay :=
  l.insertionSort dlt

/-- One week as returned by the GitHub GraphQL contribution calendar. -/
structure GqlDay where
  date : String
  contributionCount : Nat
deriving DecidableEq, Repr

structure Week where
  contributionDays : List GqlDay
deriving DecidableEq, Repr

/-- Proxy handler, lines 483-488: flatten weeks[].contributionDays[] into
one list of day/count pairs, in payload order. -/
def flattenWeeks (weeks : List Week) : List ContributionDay :=
  weeks.flatMap fun w => w.contributionDays.map fun d => ⟨d.date, d.contributionCount⟩

/-- Proxy handler, lines 494-499: when query.days carries a positive number
and the list is longer than it, keep only the trailing segment of that
length (days.slice(days.length - wanted)).  A non-numeric query.days makes
both guards false, like the none case. -/
def truncateDays (days : List ContributionDay) (queryDays : Option Int) :
    List ContributionDay :=
  match queryDays with
  | some wanted =>
    if 0 < wanted then
      if wanted < (days.length : Int) then days.drop (days.length - wanted.toNat)
      else days
    else days
  | none => days

/-- Proxy handler, lines 481-499: flatten the weeks, sort ascending by date
(line 491), then apply the last-N truncation. -/
def proxyDays (weeks : List Week) (queryDays : Option Int) : List ContributionDay :=
  truncateDays (sortByDate (flattenWeeks weeks)) queryDays

theorem truncateDays_some (l : List ContributionDay) (wanted : Int) :
    truncateDays l (some wanted)
      = if 0 < wanted then
          (if wanted < (l.length : Int) then l.drop (l.length - wanted.toNat) else l)
        else l := rfl

/-- Claim C2: with a positive requested day count N, a list that splits as
l1 ++ l2 with l2 of length N (so a list longer than N whenever l1 is
nonempty) is truncated to exactly its last N entries l2, and a list of at
most N entries is returned unchanged. -/
theorem proxy_truncation (N : Int) (hN : 0 < N) :
    (∀ l1 l2 : List ContributionDay, (l2.length : Int) = N →
        truncateDays (l1 ++ l2) (some N) = l2) ∧
    (∀ l : List ContributionDay, (l.length : Int) ≤ N →
        truncateDays l (some N) = l) := by
  constructor
  · intro l1 l2 h2
    have hNt : N.toNat = l2.length := by omega
    rw [truncateDays_some, if_pos hN]
    rcases Nat.eq_zero_or_pos l1.length with h1 | h1
    · have : l1 = [] := List.length_eq_zero.mp h1
      subst this
      rw [if_neg (by simp; omega)]
      simp
    · rw [if_pos (by simp [List.length_append]; omega)]
      have : (l1 ++ l2).length - N.toNat = l1.length := by
        simp [List.length_append]; omega
      rw [this]
      exact List.drop_left l1 l2
  · intro l hl
    rw [truncateDays_some, if_pos hN, if_neg (by omega)]

/-- Witness for C2 at a concrete input: N = 2 over a three-entry list, and
a two-entry list returned unchanged. -/
theorem proxy_truncation_witness :
    truncateDays
        [⟨"2024-01-01", 1⟩, ⟨"2024-01-02", 2⟩, ⟨"2024-01-03", 3⟩] (some 2)
      = [⟨"2024-01-02", 2⟩, ⟨"2024-01-03", 3⟩] ∧
    truncateDays [⟨"2024-01-01", 1⟩, ⟨"2024-01-02", 2⟩] (some 2)
      = [⟨"2024-01-01", 1⟩, ⟨"2024-01-02", 2⟩] := by
  constructor
  · exact (proxy_truncation 2 (by norm_num)).1
      [⟨"2024-01-01", 1⟩] [⟨"2024-01-02", 2⟩, ⟨"2024-01-03", 3⟩] (by decide)
  · exact (proxy_truncation 2 (by norm_num)).2
      [⟨"2024-01-01", 1⟩, ⟨"2024-01-02", 2⟩] (by decide)

/-- Claim C8: the widget sort (lines 109 and 263) is a no-op on a list that
is already strictly ascending by date (ascending with unique dates). -/
theorem sort_idempotent (l : List ContributionDay) (h : l.Pairwise dlt) :
    sortByDate l = l :=
  List.Sorted.insertionSort_eq h

/-- Witness for C8 at a concrete input. -/
theorem sort_idempotent_witness :
    sortByDate [⟨"2024-01-01", 4⟩, ⟨"2024-01-02", 0⟩, ⟨"2024-01-05", 2⟩]
      = [⟨"2024-01-01", 4⟩, ⟨"2024-01-02", 0⟩, ⟨"2024-01-05", 2⟩] :=
  sort_idempotent _ (by decide)

/-! Sortedness of the embedded sort on date-distinct lists, used for C3. -/

theorem orderedInsert_pairwise_dlt (a : ContributionDay) :
    ∀ l : List ContributionDay, l.Pairwise dlt →
      (∀ b ∈ l, a.date ≠ b.date) → (l.orderedInsert dlt a).Pairwise dlt := by
  intro l
  induction l with
  | nil => intro _ _; simp [List.orderedInsert]
  | cons b t ih =>
    intro hs hd
    rw [List.orderedInsert]
    by_cases hab : dlt a b
    · rw [if_pos hab]
      refine List.Pairwise.cons ?_ hs
      intro c hc
      rcases List.mem_cons.mp hc with rfl | hct
      · exact hab
      · exact lt_trans hab (List.rel_of_pairwise_cons hs hct)
    · rw [if_neg hab]
      have hba : dlt b a := by
        rcases lt_or_gt_of_ne (hd b (List.mem_cons_self b t)) with h | h
        · exact absurd h hab
        · exact h
      refine List.Pairwise.cons ?_ ?_
      · intro c hc
        rcases (List.mem_orderedInsert dlt).mp hc with rfl | hct
        · exact hba
        · exact List.rel_of_pairwise_cons hs hct
      · exact ih (List.Pairwise.of_cons hs)
          (fun c hc => hd c (List.mem_cons_of_mem b hc))

theorem sortByDate_pairwise_of_distinct :
    ∀ l : List ContributionDay,
      l.Pairwise (fun a b => a.date ≠ b.date) → (sortByDate l).Pairwise dlt := by
  intro l
  induction l with
  | nil => intro _; simp [sortByDate, List.insertionSort]
  | cons a t ih =>
    intro hd
    rw [sortByDate, List.insertionSort]
    refine orderedInsert_pairwise_dlt a _ (ih (List.Pairwise.of_cons hd)) ?_
    intro b hb
    exact List.rel_of_pairwise_cons hd ((List.mem_insertionSort dlt).mp hb)

/-- A concrete weeks payload whose flattened day sequence is out of order. -/
def outOfOrderWeeks : List Week :=
  [⟨[⟨"2024-01-03", 1⟩, ⟨"2024-01-01", 2⟩, ⟨"2024-01-02", 3⟩]⟩]

/-- Claim C3 (refuted): the proxy DOES explicitly re-sort its flattened day
list (line 491) before the last-N truncation.  On the out-of-order payload
above with N = 2, the returned days are the last 2 entries of the
date-sorted sequence, not the last 2 entries of the unsorted flattened
sequence, so the claimed output equality fails at this input. -/
theorem proxy_no_resort_refuted :
    proxyDays outOfOrderWeeks (some 2)
        ≠ (flattenWeeks outOfOrderWeeks).drop
            ((flattenWeeks outOfOrderWeeks).length - 2) ∧
    proxyDays outOfOrderWeeks (some 2)
        = [⟨"2024-01-02", 3⟩, ⟨"2024-01-03", 1⟩] ∧
    (flattenWeeks outOfOrderWeeks).drop ((flattenWeeks outOfOrderWeeks).length - 2)
        = [⟨"2024-01-01", 2⟩, ⟨"2024-01-02", 3⟩] := by
  refine ⟨by decide, by decide, by decide⟩

/-- Claim C3 as amended: the proxy sorts its flattened day list ascending
by date before truncating, so for any weeks payload whose flattened list
has pairwise distinct dates, the proxy output equals the last-N truncation
of the unique date-sorted permutation of that list. -/
theorem proxy_resorts_before_truncation (weeks : List Week) (N : Int)
    (l : List ContributionDay) (hperm : (flattenWeeks weeks).Perm l)
    (hsort : l.Pairwise dlt) :
    proxyDays weeks (some N) = truncateDays l (some N) := by
  have hld : l.Pairwise (fun a b => a.date ≠ b.date) :=
    hsort.imp fun h => ne_of_lt h
  have hfd : (flattenWeeks weeks).Pairwise (fun a b => a.date ≠ b.date) :=
    (hperm.pairwise_iff (by intro a b h; exact Ne.symm h)).mpr hld
  have heq : sortByDate (flattenWeeks weeks) = l :=
    List.eq_of_perm_of_sorted
      ((List.perm_insertionSort dlt (flattenWeeks weeks)).trans hperm)
      (sortByDate_pairwise_of_distinct _ hfd) hsort
  rw [proxyDays, heq]

/-- Witness for the amended C3 at a concrete input: the out-of-order
payload, its sorted permutation, and N = 2. -/
theorem proxy_resorts_witness :
    proxyDays outOfOrderWeeks (some 2)
      = truncateDays
          [⟨"2024-01-01", 2⟩, ⟨"2024-01-02", 3⟩, ⟨"2024-01-03", 1⟩] (some 2) :=
  proxy_resorts_before_truncation outOfOrderWeeks 2
    [⟨"2024-01-01", 2⟩, ⟨"2024-01-02", 3⟩, ⟨"2024-01-03", 1⟩]
    (by decide) (by decide)

/-! REST fallback: event aggregation and the dense day loop. -/

/-- One record of the REST public-events feed; createdAt is the calendar
day number of created_at (none when the field is absent, line 131). -/
structure RestEvent where
  createdAt : Option Int
deriving DecidableEq, Repr

/-- Widget, lines 129-134: count the events per calendar date (events
without created_at are skipped; a date absent from the map reads as 0
through the later get(...) || 0). -/
def aggregateEvents (evs : List RestEvent) (d : Int) : Nat :=
  (evs.filterMap RestEvent.createdAt).count d

/-- Widget, lines 150-159: the for-loop pushing one (date, count) pair per
calendar day from d through today inclusive. -/
def buildDaysFrom (counts : Int → Nat) (today : Int) (d : Int) : List (Int × Nat) :=
  if d ≤ today then (d, counts d) :: buildDaysFrom counts today (d + 1) else []
termination_by (today + 1 - d).toNat
decreasing_by omega

/-- Widget, lines 128-161: the whole fallback day list, from the aligned
start date through today. -/
def restFallbackContributions (evs : List RestEvent)
    (today daysToShow weekStart : Int) : List (Int × Nat) :=
  buildDaysFrom (aggregateEvents evs) today (fallbackStart today daysToShow weekStart)

theorem fallbackStart_eq (today daysToShow weekStart : Int) :
    fallbackStart today daysToShow weekStart
      = today - (daysToShow - 1)
        - jsMod (weekday (today - (daysToShow - 1)) - weekStart + 7) 7 := rfl

theorem buildDaysFrom_eq_range (counts : Int → Nat) (today : Int) :
    ∀ (n : Nat) (d : Int), (today + 1 - d).toNat = n →
      buildDaysFrom counts today d
        = (List.range n).map
            (fun (i : Nat) => (d + (i : Int), counts (d + (i : Int)))) := by
  intro n
  induction n with
  | zero =>
    intro d hd
    rw [buildDaysFrom, if_neg (by omega)]
    simp
  | succ k ih =>
    intro d hd
    rw [buildDaysFrom, if_pos (by omega), List.range_succ_eq_map,
      ih (d + 1) (by omega)]
    simp only [List.map_cons, List.map_map]
    refine congrArg₂ _ (by norm_num) ?_
    refine List.map_congr_left ?_
    intro i _
    simp only [Function.comp]
    have h1 : d + 1 + (i : Int) = d + ((i : Int) + 1) := by ring
    rw [h1]
    norm_num

/-- Claim C5: for every event set, positive day count and weekStart in
0, 1 — the fallback day list has exactly (today - start).days + 1 entries,
its i-th entry is the date start + i paired with the aggregated event count
of that date (0 when no event fell on it, since the aggregated count of an
absent date is 0), so the dates are consecutive, ascending, gap-free and
duplicate-free from the aligned start through today. -/
theorem rest_gap_filling (evs : List RestEvent) (today N W : Int)
    (hN : 0 < N) (hW : W = 0 ∨ W = 1) :
    fallbackStart today N W ≤ today ∧
    (restFallbackContributions evs today N W).length
        = (today - fallbackStart today N W).toNat + 1 ∧
    (∀ i (hi : i < (restFallbackContributions evs today N W).length),
      (restFallbackContributions evs today N W).get ⟨i, hi⟩
        = (fallbackStart today N W + (i : Int),
           aggregateEvents evs (fallbackStart today N W + (i : Int)))) ∧
    List.Chain' (fun p q : Int × Nat => q.1 = p.1 + 1)
      (restFallbackContributions evs today N W) := by
  set s := fallbackStart today N W with hs
  have hshift := align_spec (today - (N - 1)) W hW
  have hstart : s ≤ today := by
    rw [hs, fallbackStart_eq]
    omega
  have hrange : (restFallbackContributions evs today N W)
      = (List.range ((today + 1 - s).toNat)).map
          (fun (i : Nat) => (s + (i : Int), aggregateEvents evs (s + (i : Int)))) := by
    rw [restFallbackContributions, ← hs]
    exact buildDaysFrom_eq_range _ today _ s rfl
  have hlen : (restFallbackContributions evs today N W).length
      = (today - s).toNat + 1 := by
    rw [hrange, List.length_map, List.length_range]
    omega
  have hget : ∀ i (hi : i < (restFallbackContributions evs today N W).length),
      (restFallbackContributions evs today N W).get ⟨i, hi⟩
        = (s + (i : Int), aggregateEvents evs (s + (i : Int))) := by
    intro i hi
    have hi2 : i < ((today + 1 - s).toNat) := by
      rw [hlen] at hi; omega
    simp only [hrange, List.get_eq_getElem, List.getElem_map, List.getElem_range]
  refine ⟨hstart, hlen, hget, ?_⟩
  rw [List.chain'_iff_get]
  intro i hi
  have hi1 : i < (restFallbackContributions evs today N W).length := by omega
  have hi2 : i + 1 < (restFallbackContributions evs today N W).length := by omega
  simp only [hget i hi1, hget (i + 1) hi2]
  omega

/-- Witness for C5 at a concrete input: two events on day 5, one on day 7,
today = day 8 (1970-01-09), N = 3, W = 0.  The aligned start is day 3
(1970-01-04, a Sunday) and the list has 6 entries. -/
theorem rest_gap_filling_witness :
    fallbackStart 8 3 0 ≤ 8 ∧
    (restFallbackContributions [⟨some 5⟩, ⟨some 7⟩, ⟨some 5⟩, ⟨none⟩] 8 3 0).length
      = (8 - fallbackStart 8 3 0).toNat + 1 := by
  have h := rest_gap_filling [⟨some 5⟩, ⟨some 7⟩, ⟨some 5⟩, ⟨none⟩] 8 3 0
    (by norm_num) (Or.inl rfl)
  exact ⟨h.1, h.2.1⟩

/-! REST fallback pagination (fetchEventsAllPages, lines 18-58). -/

/-- One HTTP response of the events endpoint: the rate-limit headers (the
numeric reading of X-RateLimit-Remaining and X-RateLimit-Reset, none when
absent), status, res.ok, the error body text, and the parsed JSON body
(none models a body that is not an array, line 52). -/
structure PageResponse where
  remaining : Option Int
  reset : Option Int
  status : Nat
  ok : Bool
  bodyText : String
  events : Option (List RestEvent)
deriving DecidableEq, Repr

/-- The errors thrown by fetchEventsAllPages.  rateLimited carries the
reset header reading so the message can include the human-readable reset
time (lines 33-37); httpError carries status and body text (line 46). -/
inductive FetchError where
  | rateLimited (reset : Option Int)
  | notFound
  | forbidden
  | httpError (status : Nat) (text : String)
deriving DecidableEq, Repr

/-- Widget, lines 23-55: the pagination loop over the responses of pages
1, 2, ... (the list is the sequence of responses the network would give,
cut at maxPages).  Returns the collected events or the thrown error, paired
with the number of page requests actually issued. -/
def fetchPages (perPage : Nat) : List PageResponse → Except FetchError (List RestEvent) × Nat
  | [] => (Except.ok [], 0)
  | r :: rest =>
    if r.remaining = some 0 then
      (Except.error (FetchError.rateLimited r.reset), 1)
    else if r.status = 404 then (Except.error FetchError.notFound, 1)
    else if r.status = 403 then (Except.error FetchError.forbidden, 1)
    else if r.ok = false then
      (Except.error (FetchError.httpError r.status r.bodyText), 1)
    else
      match r.events with
      | none => (Except.ok [], 1)
      | some evs =>
        if evs.length = 0 then (Except.ok [], 1)
        else if evs.length < perPage then (Except.ok evs, 1)
        else
          match fetchPages perPage rest with
          | (Except.ok more, n) => (Except.ok (evs ++ more), n + 1)
          | (Except.error e, n) => (Except.error e, n + 1)

/-- A page response that lets the loop continue to the next page: no
exhausted rate-limit header, no error status, an ok response, and a full
page of events. -/
def continuesPage (perPage : Nat) (r : PageResponse) : Prop :=
  r.remaining ≠ some 0 ∧ r.status ≠ 404 ∧ r.status ≠ 403 ∧ r.ok = true ∧
  ∃ evs, r.events = some evs ∧ evs.length = perPage ∧ 0 < perPage

theorem fetchPages_cons_continue (perPage : Nat) (r : PageResponse)
    (rest : List PageResponse) (hc : continuesPage perPage r) :
    fetchPages perPage (r :: rest)
      = (match fetchPages perPage rest with
         | (Except.ok more, n) =>
            (Except.ok ((r.events.getD []) ++ more), n + 1)
         | (Except.error e, n) => (Except.error e, n + 1)) := by
  obtain ⟨h0, h404, h403, hok, evs, hevs, hlen, hpp⟩ := hc
  rw [fetchPages, if_neg h0, if_neg h404, if_neg h403, if_neg (by simp [hok])]
  rw [hevs]
  simp only [Option.getD_some]
  rw [if_neg (by omega), if_neg (by omega)]

/-- Claim C7: if the first N - 1 page responses each let the loop continue
and the response for page N carries a rate-limit-remaining header reading
0, the loop throws the rate-limit error built from that page's reset header
before looking at the page's status or body, and exactly N page requests
are issued — the responses after page N are never consulted. -/
theorem rate_limit_abort (perPage : Nat) (pre : List PageResponse)
    (r : PageResponse) (rest : List PageResponse)
    (hpre : ∀ p ∈ pre, continuesPage perPage p) (hr : r.remaining = some 0) :
    fetchPages perPage (pre ++ r :: rest)
      = (Except.error (FetchError.rateLimited r.reset), pre.length + 1) := by
  induction pre with
  | nil =>
    rw [List.nil_append, fetchPages, if_pos hr]
    simp
  | cons p pre ih =>
    have hp : continuesPage perPage p := hpre p (List.mem_cons_self p pre)
    have hrest := ih (fun q hq => hpre q (List.mem_cons_of_mem p hq))
    rw [List.cons_append, fetchPages_cons_continue perPage p _ hp, hrest]
    simp [List.length_cons]

/-- Witness for C7 at a concrete input: perPage = 2, one full continuing
page, then a page whose remaining header reads 0 with reset header 99;
the loop stops after 2 requests with the rate-limit error even though a
third response exists. -/
theorem rate_limit_abort_witness :
    fetchPages 2
      [⟨some 5, none, 200, true, "", some [⟨some 1⟩, ⟨some 2⟩]⟩,
       ⟨some 0, some 99, 200, true, "", some [⟨some 3⟩, ⟨some 4⟩]⟩,
       ⟨none, none, 200, true, "", some [⟨some 6⟩]⟩]
      = (Except.error (FetchError.rateLimited (some 99)), 2) := by
  have h := rate_limit_abort 2
    [⟨some 5, none, 200, true, "", some [⟨some 1⟩, ⟨some 2⟩]⟩]
    ⟨some 0, some 99, 200, true, "", some [⟨some 3⟩, ⟨some 4⟩]⟩
    [⟨none, none, 200, true, "", some [⟨some 6⟩]⟩]
    (by
      intro p hp
      simp only [List.mem_singleton] at hp
      subst hp
      exact ⟨by decide, by decide, by decide, rfl, [⟨some 1⟩, ⟨some 2⟩], rfl, rfl, by decide⟩)
    rfl
  simpa using h

/-! Intensity level mapping (getContributionLevel, lines 175-183). -/

/-- Widget, lines 175-183: the 0..4 intensity bucket of a day count
relative to the maximum count of the window.  The JavaScript division
count / max on the integer counts that reach this function is modelled by
exact rational division; the thresholds 0.25, 0.5 and 0.75 are exactly
representable.  The falsy checks !count and !max are the zero tests, since
the counts are non-negative integers here. -/
def getContributionLevel (count mx : Nat) : Nat :=
  if count = 0 then 0
  else if mx = 0 then 1
  else if (count : ℚ) / (mx : ℚ) ≤ 1 / 4 then 1
  else if (count : ℚ) / (mx : ℚ) ≤ 1 / 2 then 2
  else if (count : ℚ) / (mx : ℚ) ≤ 3 / 4 then 3
  else 4

/-- Claim C4: getContributionLevel maps 0 to level 0 for every max; any
positive count with max 0 to level 1; the ratio buckets (at most 1/4, at
most 1/2, at most 3/4, above 3/4) to 1, 2, 3, 4 in that priority order;
in particular level(max, max) = 4 for positive max; and the result is
always at most 4 (so always one of 0, 1, 2, 3, 4). -/
theorem level_mapping :
    (∀ m, getContributionLevel 0 m = 0) ∧
    (∀ c, c ≠ 0 → getContributionLevel c 0 = 1) ∧
    (∀ (c m : Nat), c ≠ 0 → m ≠ 0 →
      ((c : ℚ) / (m : ℚ) ≤ 1 / 4 → getContributionLevel c m = 1) ∧
      (¬((c : ℚ) / (m : ℚ) ≤ 1 / 4) → (c : ℚ) / (m : ℚ) ≤ 1 / 2 →
        getContributionLevel c m = 2) ∧
      (¬((c : ℚ) / (m : ℚ) ≤ 1 / 2) → (c : ℚ) / (m : ℚ) ≤ 3 / 4 →
        getContributionLevel c m = 3) ∧
      (¬((c : ℚ) / (m : ℚ) ≤ 3 / 4) → getContributionLevel c m = 4)) ∧
    (∀ m, m ≠ 0 → getContributionLevel m m = 4) ∧
    (∀ c m, getContributionLevel c m ≤ 4) := by
  refine ⟨?_, ?_, ?_, ?_, ?_⟩
  · intro m; simp [getContributionLevel]
  · intro c hc; simp [getContributionLevel, hc]
  · intro c m hc hm
    refine ⟨?_, ?_, ?_, ?_⟩
    · intro h1
      unfold getContributionLevel
      rw [if_neg hc, if_neg hm, if_pos h1]
    · intro h1 h2
      unfold getContributionLevel
      rw [if_neg hc, if_neg hm, if_neg h1, if_pos h2]
    · intro h2 h3
      have h1 : ¬((c : ℚ) / (m : ℚ) ≤ 1 / 4) := fun h => h2 (by linarith)
      unfold getContributionLevel
      rw [if_neg hc, if_neg hm, if_neg h1, if_neg h2, if_pos h3]
    · intro h3
      have h2 : ¬((c : ℚ) / (m : ℚ) ≤ 1 / 2) := fun h => h3 (by linarith)
      have h1 : ¬((c : ℚ) / (m : ℚ) ≤ 1 / 4) := fun h => h2 (by linarith)
      unfold getContributionLevel
      rw [if_neg hc, if_neg hm, if_neg h1, if_neg h2, if_neg h3]
  · intro m hm
    have hq : (m : ℚ) / (m : ℚ) = 1 := div_self (by exact_mod_cast hm)
    simp [getContributionLevel, hm, hq]
    norm_num
  · intro c m
    unfold getContributionLevel
    split_ifs <;> norm_num

/-- Witness for C4 at concrete inputs, the worked scenario of the spec:
level(3, 12) = 1 at ratio exactly 1/4, level(7, 12) = 3, level(12, 12) = 4,
level(0, 12) = 0 and level(5, 0) = 1. -/
theorem level_mapping_witness :
    getContributionLevel 3 12 = 1 ∧ getContributionLevel 7 12 = 3 ∧
    getContributionLevel 12 12 = 4 ∧ getContributionLevel 0 12 = 0 ∧
    getContributionLevel 5 0 = 1 := by
  refine ⟨?_, ?_, ?_, ?_, ?_⟩
  · exact ((level_mapping.2.2.1 3 12 (by norm_num) (by norm_num)).1 (by norm_num))
  · exact ((level_mapping.2.2.1 7 12 (by norm_num) (by norm_num)).2.2.1
      (by norm_num) (by norm_num))
  · exact level_mapping.2.2.2.1 12 (by norm_num)
  · exact level_mapping.1 12
  · exact level_mapping.2.1 5 (by norm_num)

/-! The Netlify proxy handler (lines 345-529). -/

/-- JavaScript String.prototype.split with separator "/", over the
character list of the string: "a//b" gives "a", "", "b" and the empty
string gives one empty piece. -/
def splitSlash : List Char → List (List Char)
  | [] => [[]]
  | c :: rest =>
    let s := splitSlash rest
    if c = '/' then [] :: s else (c :: s.headD []) :: s.tail

/-- Handler, line 352: event.path.split("/").pop(), the trailing path
segment (split never yields an empty array, so pop reads its last piece). -/
def trailingSegment (p : String) : String :=
  String.mk ((splitSlash p.toList).getLastD [])

/-- JavaScript x || y over the string-or-missing values of the username
chain: a missing value and the empty string are the falsy cases, both
modelled as the empty string. -/
def jsOrStr (a b : String) : String := if a = "" then b else a

/-- The fields of the Netlify event object the handler reads.  The
numeric query parameters days, to and weekStart are modelled by their
numeric readings (none when absent or empty, hence falsy); queryTo and
queryWeekStart feed only the upstream date window (proxyTo and
proxyFromOfDays above), never the HTTP response. -/
structure NetlifyEvent where
  pathParamsUsername : Option String
  queryUsername : Option String
  queryUser : Option String
  path : Option String
  queryDays : Option Int
  queryTo : Option Int
  queryWeekStart : Option Int
deriving DecidableEq, Repr

/-- Handler, lines 348-352: username resolution, first truthy value among
the path parameter, the username query parameter, the user query
parameter and the trailing path segment, in that order. -/
def resolveUsername (ev : NetlifyEvent) : String :=
  jsOrStr (ev.pathParamsUsername.getD "")
    (jsOrStr (ev.queryUsername.getD "")
      (jsOrStr (ev.queryUser.getD "")
        ((ev.path.map trailingSegment).getD "")))

/-- The JSON-serialised response bodies the handler produces, kept as
structured values: an error object with optional details (a GraphQL error
list or a caught exception message), the days payload, or the raw text
pass-through of an upstream HTTP failure. -/
inductive Body where
  | jsonMsg (error : String)
  | jsonMsgDetails (error : String) (details : List String)
  | jsonMsgDetail (error : String) (details : String)
  | jsonDays (days : List ContributionDay)
  | rawText (s : String)
deriving DecidableEq, Repr

/-- A handler response: status code, Content-Type header and body.  Every
response also carries the CORS allow-all header, which is constant and
not modelled. -/
structure HttpResponse where
  statusCode : Nat
  contentType : String
  body : Body
deriving DecidableEq, Repr

/-- A thrown JavaScript exception, carrying err.message. -/
structure JsError where
  message : String
deriving DecidableEq, Repr

/-- The parsed JSON of the GraphQL response, each level optional the way
JavaScript property access sees it: none for a null or absent value.
Reading a property of a none level throws. -/
structure GhCalendar where
  weeks : Option (List Week)
deriving DecidableEq, Repr

structure GhCollection where
  contributionCalendar : Option GhCalendar
deriving DecidableEq, Repr

structure GhUser where
  contributionsCollection : Option GhCollection
deriving DecidableEq, Repr

structure GhData where
  user : Option GhUser
deriving DecidableEq, Repr

structure GhJson where
  errors : Option (List String)
  data : Option GhData
deriving DecidableEq, Repr

/-- The upstream GraphQL HTTP response: ok flag, status, body text, and
the parsed JSON body (none when the body is not valid JSON, in which case
ghRes.json() throws). -/
structure GhResponse where
  ok : Bool
  status : Nat
  text : String
  json : Option GhJson
deriving DecidableEq, Repr


/-- Handler, lines 481-482, innermost step: cal.weeks || [] (only a null
weeks field is saved by the || [] default). -/
def getWeeksCal : Option GhCalendar → Except JsError (List Week)
  | none => Except.error ⟨"Cannot read properties of undefined (reading weeks)"⟩
  | some cal => Except.ok (cal.weeks.getD [])

def getWeeksColl : Option GhCollection → Except JsError (List Week)
  | none =>
    Except.error ⟨"Cannot read properties of undefined (reading contributionCalendar)"⟩
  | some cc => getWeeksCal cc.contributionCalendar

def getWeeksUser : Option GhUser → Except JsError (List Week)
  | none =>
    Except.error ⟨"Cannot read properties of null (reading contributionsCollection)"⟩
  | some u => getWeeksColl u.contributionsCollection

def getWeeksData : Option GhData → Except JsError (List Week)
  | none => Except.error ⟨"Cannot read properties of undefined (reading user)"⟩
  | some d => getWeeksUser d.user

/-- Handler, lines 481-482: the property chain
json.data.user.contributionsCollection.contributionCalendar.weeks || [],
where reading a property of a null or undefined level throws a TypeError. -/
def getWeeks (j : GhJson) : Except JsError (List Week) :=
  getWeeksData j.data

/-- Handler, lines 506-514: the 200 response around the flatten, sort and
truncate pipeline (proxyDays), or the propagated exception of the weeks
property chain. -/
def respondWeeks (queryDays : Option Int) :
    Except JsError (List Week) → Except JsError HttpResponse
  | Except.error e => Except.error e
  | Except.ok weeks =>
    Except.ok ⟨200, "application/json", Body.jsonDays (proxyDays weeks queryDays)⟩

/-- Handler, lines 466-514: from await ghRes.json() on.  The argument is
the parsed JSON (none when parsing throws); a GraphQL-level errors array
gives the 500 error response of lines 467-479. -/
def handlerJson (queryDays : Option Int) : Option GhJson → Except JsError HttpResponse
  | none => Except.error ⟨"Unexpected end of JSON input"⟩
  | some json =>
    if 0 < (json.errors.getD []).length then
      Except.ok ⟨500, "application/json",
        Body.jsonMsgDetails "Erro do GitHub GraphQL" (json.errors.getD [])⟩
    else respondWeeks queryDays (getWeeks json)

/-- Handler, line 362: the 400 bad-request body. -/
def badRequestBody : Body :=
  Body.jsonMsg "username é obrigatório na rota ou como query param."

/-- Handler, lines 346-514: the body of the try block, as a function of
the event, the GITHUB_TOKEN environment variable and the upstream GraphQL
response (the gh argument models what the single upstream fetch would
return; it is only consulted after the username and token checks pass,
matching the control flow).  An Except.error is a thrown exception
reaching the catch block.  The date-window computation of lines 370-406
only feeds the upstream request variables (proxyTo and proxyFromOfDays
above) and does not touch the response, so it does not appear here. -/
def handlerTry (ev : NetlifyEvent) (githubToken : Option String)
    (gh : GhResponse) : Except JsError HttpResponse :=
  if resolveUsername ev = "" then
    Except.ok ⟨400, "application/json", badRequestBody⟩
  else if githubToken.getD "" = "" then
    Except.ok ⟨500, "application/json",
      Body.jsonMsg "GITHUB_TOKEN não configurado no ambiente."⟩
  else if gh.ok = false then
    Except.ok ⟨gh.status, "text/plain",
      Body.rawText ("GitHub GraphQL error: " ++ gh.text)⟩
  else handlerJson ev.queryDays gh.json

/-- Handler, lines 515-528: the catch block maps any thrown exception to a
500 response carrying the exception message as details. -/
def internalErrorResponse (e : JsError) : HttpResponse :=
  ⟨500, "application/json", Body.jsonMsgDetail "Erro interno na função" e.message⟩

def handlerCatch : Except JsError HttpResponse → HttpResponse
  | Except.ok r => r
  | Except.error e => internalErrorResponse e

/-- Handler, lines 345-529: the whole exported function, a total function:
the try body with every thrown exception caught. -/
def handler (ev : NetlifyEvent) (githubToken : Option String)
    (gh : GhResponse) : HttpResponse :=
  handlerCatch (handlerTry ev githubToken gh)

theorem resolveUsername_empty_iff (ev : NetlifyEvent) :
    resolveUsername ev = "" ↔
      (ev.pathParamsUsername.getD "" = "" ∧ ev.queryUsername.getD "" = "" ∧
       ev.queryUser.getD "" = "" ∧ (ev.path.map trailingSegment).getD "" = "") := by
  unfold resolveUsername jsOrStr
  split_ifs <;> simp_all

/-- Claim C9: the proxy resolves the username by taking the first
non-empty value among the path parameter username, the query parameter
username, the query parameter user, and the trailing path segment, in that
priority order; and it responds with status 400 and the bad-request error
body exactly when all four are empty or absent. -/
theorem username_resolution (ev : NetlifyEvent) (githubToken : Option String)
    (gh : GhResponse) :
    resolveUsername ev
      = (if ev.pathParamsUsername.getD "" ≠ "" then ev.pathParamsUsername.getD ""
         else if ev.queryUsername.getD "" ≠ "" then ev.queryUsername.getD ""
         else if ev.queryUser.getD "" ≠ "" then ev.queryUser.getD ""
         else (ev.path.map trailingSegment).getD "") ∧
    (handler ev githubToken gh = ⟨400, "application/json", badRequestBody⟩ ↔
      (ev.pathParamsUsername.getD "" = "" ∧ ev.queryUsername.getD "" = "" ∧
       ev.queryUser.getD "" = "" ∧ (ev.path.map trailingSegment).getD "" = "")) := by
  constructor
  · unfold resolveUsername jsOrStr
    split_ifs <;> tauto
  · rw [← resolveUsername_empty_iff]
    constructor
    · intro h
      by_contra hne
      by_cases htok : githubToken.getD "" = ""
      · rw [handler, handlerTry, if_neg hne, if_pos htok, handlerCatch] at h
        simp at h
      · rw [handler, handlerTry, if_neg hne, if_neg htok] at h
        by_cases hok : gh.ok = false
        · rw [if_pos hok, handlerCatch] at h
          simp [badRequestBody] at h
        · rw [if_neg hok] at h
          cases hjson : gh.json with
          | none =>
            rw [hjson, handlerJson, handlerCatch] at h
            simp [internalErrorResponse] at h
          | some j =>
            rw [hjson, handlerJson] at h
            by_cases herr : 0 < (j.errors.getD []).length
            · rw [if_pos herr, handlerCatch] at h
              simp at h
            · rw [if_neg herr] at h
              cases hw : getWeeks j with
              | error e =>
                rw [hw, respondWeeks, handlerCatch] at h
                simp [internalErrorResponse] at h
              | ok weeks =>
                rw [hw, respondWeeks, handlerCatch] at h
                simp at h
    · intro h
      rw [handler, handlerTry, if_pos h, handlerCatch]

/-- Witness for C9 at concrete inputs: an event with no username anywhere
(a path whose trailing segment is empty) is answered 400 with the
bad-request body, and an event carrying only the query parameter user
resolves to it. -/
theorem username_resolution_witness :
    handler ⟨none, none, none, some "/.netlify/functions/github-contributions/",
        none, none, none⟩ (some "tok")
        ⟨true, 200, "", some ⟨none, some ⟨some ⟨some ⟨some ⟨some []⟩⟩⟩⟩⟩⟩
      = ⟨400, "application/json", badRequestBody⟩ ∧
    resolveUsername ⟨none, none, some "Gildaciolopes", some "/x/y", none, none, none⟩
      = "Gildaciolopes" := by
  constructor
  · exact (username_resolution _ (some "tok") _).2.mpr (by decide)
  · rw [(username_resolution ⟨none, none, some "Gildaciolopes", some "/x/y",
      none, none, none⟩ none ⟨true, 200, "", none⟩).1]
    decide

/-- Claim C10: the handler is a total function into responses (the model
types it so, matching the top-level try/catch): whatever the try body
does, the handler returns its response when it returns one, and when it
throws the handler returns the catch response — statusCode 500 with a JSON
body carrying the internal-error message and the exception text as
details.  In particular an unparseable upstream body and a GraphQL payload
whose data lacks the user object (json.data undefined) both surface as
such 500 responses. -/
theorem handler_totality (ev : NetlifyEvent) (githubToken : Option String)
    (gh : GhResponse) :
    (∀ r, handlerTry ev githubToken gh = Except.ok r →
      handler ev githubToken gh = r) ∧
    (∀ e, handlerTry ev githubToken gh = Except.error e →
      handler ev githubToken gh
        = ⟨500, "application/json",
            Body.jsonMsgDetail "Erro interno na função" e.message⟩) ∧
    (resolveUsername ev ≠ "" → githubToken.getD "" ≠ "" → gh.ok = true →
      gh.json = none →
      handler ev githubToken gh
        = internalErrorResponse ⟨"Unexpected end of JSON input"⟩) ∧
    (∀ j, resolveUsername ev ≠ "" → githubToken.getD "" ≠ "" → gh.ok = true →
      gh.json = some j → (j.errors.getD []).length = 0 → j.data = none →
      handler ev githubToken gh
        = internalErrorResponse
            ⟨"Cannot read properties of undefined (reading user)"⟩) := by
  refine ⟨?_, ?_, ?_, ?_⟩
  · intro r hr
    rw [handler, hr, handlerCatch]
  · intro e he
    rw [handler, he, handlerCatch, internalErrorResponse]
  · intro hu htok hok hjson
    rw [handler, handlerTry, if_neg hu, if_neg htok, if_neg (by simp [hok])]
    rw [hjson, handlerJson, handlerCatch]
  · intro j hu htok hok hjson herr hdata
    rw [handler, handlerTry, if_neg hu, if_neg htok, if_neg (by simp [hok])]
    rw [hjson, handlerJson, if_neg (by omega), getWeeks, hdata, getWeeksData,
      respondWeeks, handlerCatch]

/-- Witness for C10 at a concrete input: a token-configured request for an
existing username whose upstream response is not valid JSON is answered
with the 500 internal-error response carrying the parse message. -/
theorem handler_totality_witness :
    handler ⟨some "Gildaciolopes", none, none, none, some 167, none, some 0⟩
        (some "tok") ⟨true, 200, "not json", none⟩
      = internalErrorResponse ⟨"Unexpected end of JSON input"⟩ :=
  (handler_totality ⟨some "Gildaciolopes", none, none, none, some 167, none, some 0⟩
      (some "tok") ⟨true, 200, "not json", none⟩).2.2.1
    (by decide) (by decide) rfl rfl

end GithubCalendarSpec
